import Mathlib

/-!
Verification of the daughterboard bus/register interface
(`usrp_uhd::usrp::dboard::interface`, from
`include/usrp_uhd/usrp/dboard/interface.hpp`).

The source file declares a pure abstract class: enumerations for SPI
device / push edge / latch edge / GPIO bank selectors, and pure virtual
operations for ATR/GPIO masked register access, I2C/SPI byte transfers,
auxiliary DAC/ADC access and clock-rate queries.  No implementation is
part of the repository, so the operational behaviour below is modelled
from the specification document; the enumerations and operation
signatures are embedded directly from the header.
-/

/-- From the source: `enum spi_dev_t` with values `SPI_TX_DEV`, `SPI_RX_DEV`
(tells the host which device to use). -/
inductive spi_dev_t
  | SPI_TX_DEV
  | SPI_RX_DEV
deriving DecidableEq, Repr

/-- From the source: `enum spi_push_t` with values `SPI_PUSH_RISE`,
`SPI_PUSH_FALL` (args for writing spi data). -/
inductive spi_push_t
  | SPI_PUSH_RISE
  | SPI_PUSH_FALL
deriving DecidableEq, Repr

/-- From the source: `enum spi_latch_t` with values `SPI_LATCH_RISE`,
`SPI_LATCH_FALL` (args for reading spi data). -/
inductive spi_latch_t
  | SPI_LATCH_RISE
  | SPI_LATCH_FALL
deriving DecidableEq, Repr

/-- From the source: `enum gpio_bank_t` with values `GPIO_TX_BANK`,
`GPIO_RX_BANK` (tells the host which gpio bank). -/
inductive gpio_bank_t
  | GPIO_TX_BANK
  | GPIO_RX_BANK
deriving DecidableEq, Repr

/-- Modelled from the spec: error taxonomy of section 7 — a bus transaction
failure (peer did not acknowledge / controller transfer error) or a usage
error (out-of-range DAC/ADC index). -/
inductive dboard_error
  | bus_failure
  | usage_error
deriving DecidableEq, Repr

/-- All registers are 16-bit unsigned bit patterns. -/
def MASK16 : Nat := 65535

/-- Truncation to the 16-bit register width (models `uint16_t`). -/
def trunc16 (x : Nat) : Nat := x % 65536

/-- 16-bit one's complement (`~mask` on a `uint16_t`). -/
def comp16 (x : Nat) : Nat := MASK16 ^^^ trunc16 x

/-- Modelled from the spec: the masked register update shared by all
register writes — only bits set in `mask` are modified, the others retain
their prior state: the new content is `(r and not mask) or (v and mask)`
at the 16-bit register width. -/
def masked_write (r v m : Nat) : Nat :=
  (r &&& comp16 m) ||| (trunc16 v &&& trunc16 m)

/-- Modelled from the spec: the per-bank register file — GPIO data
direction register, GPIO output (pin value) register, the externally
driven input levels of the pins (environment, read-only), and the ATR
dual-value register holding an independent transmit-state value and
receive-state value. -/
structure bank_regs where
  ddr : Nat
  pins : Nat
  ext_levels : Nat
  atr_tx : Nat
  atr_rx : Nat
deriving DecidableEq, Repr

/-- Modelled from the spec: an I2C peer, identified by a 7-bit address —
an acknowledge flag (a peer that does not acknowledge makes the
transaction fail) and a loopback byte memory. -/
structure i2c_peer where
  ack : Bool
  mem : List Nat
deriving DecidableEq, Repr

/-- Modelled from the spec: an SPI peer behind one of the two chip-select
lines — a transfer-ok flag (the controller reports a transfer error when
false) and a loopback byte memory. -/
structure spi_peer where
  ok : Bool
  mem : List Nat
deriving DecidableEq, Repr

/-- Modelled from the spec: the state visible through one dboard
interface instance — one register file per GPIO bank, the I2C peers by
address, the two SPI peers, the auxiliary DAC outputs and ADC inputs with
the board's channel counts, and the two reference clock rates (Hz,
non-negative, represented as rationals; the contract has no setter). -/
structure iface_state where
  tx_bank : bank_regs
  rx_bank : bank_regs
  i2c_bus : Nat → i2c_peer
  spi_tx : spi_peer
  spi_rx : spi_peer
  dacs : Nat → Int
  adcs : Nat → Int
  num_dacs : Nat
  num_adcs : Nat
  tx_clock_rate : Rat
  rx_clock_rate : Rat

/-- The register file of the selected bank. -/
def get_bank : gpio_bank_t → iface_state → bank_regs
  | gpio_bank_t.GPIO_TX_BANK, s => s.tx_bank
  | gpio_bank_t.GPIO_RX_BANK, s => s.rx_bank

/-- Replace the register file of the selected bank. -/
def set_bank : gpio_bank_t → bank_regs → iface_state → iface_state
  | gpio_bank_t.GPIO_TX_BANK, b, s => { s with tx_bank := b }
  | gpio_bank_t.GPIO_RX_BANK, b, s => { s with rx_bank := b }

/-- Well-formedness: every register holds a 16-bit value and the clock
rates are non-negative. -/
def bank_wf (b : bank_regs) : Prop :=
  b.ddr < 65536 ∧ b.pins < 65536 ∧ b.ext_levels < 65536 ∧
  b.atr_tx < 65536 ∧ b.atr_rx < 65536

/-- Well-formedness of the whole interface state. -/
def iface_wf (s : iface_state) : Prop :=
  bank_wf s.tx_bank ∧ bank_wf s.rx_bank ∧
  0 ≤ s.tx_clock_rate ∧ 0 ≤ s.rx_clock_rate

instance (b : bank_regs) : Decidable (bank_wf b) := by
  unfold bank_wf; infer_instance

instance (s : iface_state) : Decidable (iface_wf s) := by
  unfold iface_wf; infer_instance

/-- Modelled from the spec: `set_atr_reg(bank, tx_value, rx_value, mask)` —
the ATR register for the bank has two values, one while transmitting and
one while receiving; the single shared `mask` governs which bits of both
views are updated (0 = ignore, 1 = atr). -/
def set_atr_reg (bank : gpio_bank_t) (tx_value rx_value mask : Nat)
    (s : iface_state) : iface_state :=
  let b := get_bank bank s
  set_bank bank
    { b with
      atr_tx := masked_write b.atr_tx tx_value mask,
      atr_rx := masked_write b.atr_rx rx_value mask } s

/-- Modelled from the spec: `set_gpio_ddr(bank, value, mask)` — masked
update of the data direction register (1 = output, 0 = input; mask
0 = ignore, 1 = set). -/
def set_gpio_ddr (bank : gpio_bank_t) (value mask : Nat)
    (s : iface_state) : iface_state :=
  let b := get_bank bank s
  set_bank bank { b with ddr := masked_write b.ddr value mask } s

/-- Modelled from the spec: `write_gpio(bank, value, mask)` — masked
update of the GPIO output register (1 = high, 0 = low; mask 0 = ignore,
1 = set); the register records the last value requested for every masked
bit. -/
def write_gpio (bank : gpio_bank_t) (value mask : Nat)
    (s : iface_state) : iface_state :=
  let b := get_bank bank s
  set_bank bank { b with pins := masked_write b.pins value mask } s

/-- Modelled from the spec: `read_gpio(bank)` — the instantaneous 16-bit
level of all pins of the bank: bits configured as output reflect the last
value requested, bits configured as input reflect the externally driven
level. -/
def read_gpio (bank : gpio_bank_t) (s : iface_state) : Nat :=
  let b := get_bank bank s
  (b.pins &&& trunc16 b.ddr) ||| (b.ext_levels &&& comp16 b.ddr)

/-- The successor state of a successful `write_i2c`: the addressed peer
holds exactly the written bytes. -/
def i2c_poke (addr : Nat) (buf : List Nat) (s : iface_state) : iface_state :=
  { s with i2c_bus := fun a =>
      if a = addr then { s.i2c_bus addr with mem := buf } else s.i2c_bus a }

/-- Modelled from the spec: `write_i2c(i2c_addr, buf)` — the bytes are
written in order as a single transaction; the call fails as a whole (no
truncation, no partial write) exactly when the addressed peer does not
acknowledge. -/
def write_i2c (addr : Nat) (buf : List Nat) (s : iface_state) :
    Except dboard_error iface_state :=
  if (s.i2c_bus addr).ack then Except.ok (i2c_poke addr buf s)
  else Except.error dboard_error.bus_failure

/-- Modelled from the spec: `read_i2c(i2c_addr, len)` — requests exactly
`len` bytes from the peer; returns the data read if successful, else a
zero-length result (never a partial buffer). -/
def read_i2c (addr len : Nat) (s : iface_state) : List Nat :=
  let p := s.i2c_bus addr
  if p.ack then p.mem.take len ++ List.replicate (len - p.mem.length) 0
  else []

/-- The SPI peer behind the selected chip-select line. -/
def get_spi_dev : spi_dev_t → iface_state → spi_peer
  | spi_dev_t.SPI_TX_DEV, s => s.spi_tx
  | spi_dev_t.SPI_RX_DEV, s => s.spi_rx

/-- The successor state of a successful `write_spi`: the selected peer
holds exactly the written bytes. -/
def spi_poke (dev : spi_dev_t) (buf : List Nat) (s : iface_state) :
    iface_state :=
  match dev with
  | spi_dev_t.SPI_TX_DEV => { s with spi_tx := { s.spi_tx with mem := buf } }
  | spi_dev_t.SPI_RX_DEV => { s with spi_rx := { s.spi_rx with mem := buf } }

/-- Modelled from the spec: `write_spi(dev, push, buf)` — writes the bytes
to the selected SPI device, presenting each bit at the push edge (a
transaction parameter, not persistent state); fails as a whole when the
controller reports a transfer error. -/
def write_spi (dev : spi_dev_t) (push : spi_push_t) (buf : List Nat)
    (s : iface_state) : Except dboard_error iface_state :=
  if (get_spi_dev dev s).ok then Except.ok (spi_poke dev buf s)
  else Except.error dboard_error.bus_failure

/-- Modelled from the spec: `read_spi(dev, latch, len)` — reads exactly
`len` bytes from the selected device, sampling at the latch edge; returns
the data read if successful, else a zero-length result. -/
def read_spi (dev : spi_dev_t) (latch : spi_latch_t) (len : Nat)
    (s : iface_state) : List Nat :=
  let p := get_spi_dev dev s
  if p.ok then p.mem.take len ++ List.replicate (len - p.mem.length) 0
  else []

/-- The successor state of a successful `write_aux_dac`. -/
def dac_poke (which_dac : Nat) (value : Int) (s : iface_state) :
    iface_state :=
  { s with dacs := fun i => if i = which_dac then value else s.dacs i }

/-- Modelled from the spec: `write_aux_dac(which_dac, value)` — sets the
indexed auxiliary DAC output; the index ranges over the board's available
DAC channels 0, 1, 2, …; an out-of-range index is a usage error that
fails fast without performing any access. -/
def write_aux_dac (which_dac : Nat) (value : Int) (s : iface_state) :
    Except dboard_error iface_state :=
  if which_dac < s.num_dacs then Except.ok (dac_poke which_dac value s)
  else Except.error dboard_error.usage_error

/-- Modelled from the spec: `read_aux_adc(which_adc)` — samples the
indexed auxiliary ADC input; same indexing and range contract as the
DAC. -/
def read_aux_adc (which_adc : Nat) (s : iface_state) :
    Except dboard_error Int :=
  if which_adc < s.num_adcs then Except.ok (s.adcs which_adc)
  else Except.error dboard_error.usage_error

/-- Modelled from the spec: `get_tx_clock_rate()` — reports the currently
effective tx reference clock rate; a pure read that leaves the state
unchanged. -/
def get_tx_clock_rate (s : iface_state) : Rat × iface_state :=
  (s.tx_clock_rate, s)

/-- Modelled from the spec: `get_rx_clock_rate()` — reports the currently
effective rx reference clock rate; a pure read that leaves the state
unchanged. -/
def get_rx_clock_rate (s : iface_state) : Rat × iface_state :=
  (s.rx_clock_rate, s)

/-- One state-mutating register operation of the interface, used to talk
about sequences of interleaved calls. -/
inductive gpio_op
  | op_set_atr (bank : gpio_bank_t) (tx rx m : Nat)
  | op_set_ddr (bank : gpio_bank_t) (v m : Nat)
  | op_write_gpio (bank : gpio_bank_t) (v m : Nat)
deriving DecidableEq, Repr

/-- The bank a register operation targets. -/
def gpio_op_bank : gpio_op → gpio_bank_t
  | gpio_op.op_set_atr bank _ _ _ => bank
  | gpio_op.op_set_ddr bank _ _ => bank
  | gpio_op.op_write_gpio bank _ _ => bank

/-- Apply one register operation. -/
def apply_gpio_op : gpio_op → iface_state → iface_state
  | gpio_op.op_set_atr bank tx rx m, s => set_atr_reg bank tx rx m s
  | gpio_op.op_set_ddr bank v m, s => set_gpio_ddr bank v m s
  | gpio_op.op_write_gpio bank v m, s => write_gpio bank v m s

/-- Apply a sequence of register operations, first element first. -/
def apply_gpio_ops (l : List gpio_op) (s : iface_state) : iface_state :=
  l.foldl (fun s op => apply_gpio_op op s) s

/-- Fold a list of masked writes `(value, mask)` into a register, first
element first — one register seen by several callers, each call an atomic
read-modify-write (spec section 5). -/
def apply_masked_writes (r : Nat) (ws : List (Nat × Nat)) : Nat :=
  ws.foldl (fun r p => masked_write r p.1 p.2) r

/-- The union of the masks of a list of masked writes. -/
def union_mask (ws : List (Nat × Nat)) : Nat :=
  ws.foldr (fun p a => p.2 ||| a) 0

/-- The union of the intended values `value and mask` of a list of
masked writes. -/
def union_value (ws : List (Nat × Nat)) : Nat :=
  ws.foldr (fun p a => (p.1 &&& p.2) ||| a) 0

/-- A concrete well-formed interface state used as a test fixture:
registers cleared, all peers acknowledging with empty memory, four
DAC/ADC channels, 64 MHz clocks. -/
def init_state : iface_state :=
  { tx_bank := ⟨0, 0, 0, 0, 0⟩
    rx_bank := ⟨0, 0, 0, 0, 0⟩
    i2c_bus := fun _ => ⟨true, []⟩
    spi_tx := ⟨true, []⟩
    spi_rx := ⟨true, []⟩
    dacs := fun _ => 0
    adcs := fun _ => 0
    num_dacs := 4
    num_adcs := 4
    tx_clock_rate := 64000000
    rx_clock_rate := 64000000 }

/-- The fixture with every tx-bank pin configured as output. -/
def out_state : iface_state :=
  { init_state with tx_bank := ⟨65535, 0, 0, 0, 0⟩ }

/-! ## Bit-level facts about the masked register update -/

theorem trunc16_testBit (x i : Nat) :
    (trunc16 x).testBit i = (x.testBit i && decide (i < 16)) := by
  rw [trunc16, show (65536 : Nat) = 2 ^ 16 from rfl, Nat.testBit_mod_two_pow,
    Bool.and_comm]

theorem comp16_testBit (x i : Nat) :
    (comp16 x).testBit i
      = (decide (i < 16) ^^ (x.testBit i && decide (i < 16))) := by
  rw [comp16, MASK16, show (65535 : Nat) = 2 ^ 16 - 1 from rfl,
    Nat.testBit_xor, Nat.testBit_two_pow_sub_one, trunc16_testBit]

theorem trunc16_lt (x : Nat) : trunc16 x < 65536 :=
  Nat.mod_lt _ (by norm_num)

theorem masked_write_lt (r v m : Nat) : masked_write r v m < 65536 := by
  have e : (65536 : Nat) = 2 ^ 16 := by norm_num
  rw [masked_write, e]
  refine Nat.or_lt_two_pow (Nat.and_lt_two_pow _ ?_) (Nat.and_lt_two_pow _ ?_)
  · rw [comp16]
    exact Nat.xor_lt_two_pow (by norm_num [MASK16]) (e ▸ trunc16_lt m)
  · exact e ▸ trunc16_lt m

theorem testBit_hi_of_lt {r : Nat} (i : Nat) (hr : r < 65536) (hi : 16 ≤ i) :
    r.testBit i = false := by
  have h : (65536 : Nat) ≤ 2 ^ i := by
    calc (65536 : Nat) = 2 ^ 16 := by norm_num
    _ ≤ 2 ^ i := Nat.pow_le_pow_right (by norm_num) hi
  exact Nat.testBit_lt_two_pow (lt_of_lt_of_le hr h)

theorem masked_write_testBit_hi (r v m i : Nat) (hi : 16 ≤ i) :
    (masked_write r v m).testBit i = false :=
  testBit_hi_of_lt i (masked_write_lt r v m) hi

theorem masked_write_testBit_of_mask (r v m i : Nat) (hi : i < 16)
    (hm : m.testBit i = true) :
    (masked_write r v m).testBit i = v.testBit i := by
  have hd : decide (i < 16) = true := by simp [hi]
  simp [masked_write, Nat.testBit_or, Nat.testBit_and, comp16_testBit,
    trunc16_testBit, hm, hd]

theorem masked_write_testBit_of_not_mask_lo (r v m i : Nat) (hi : i < 16)
    (hm : m.testBit i = false) :
    (masked_write r v m).testBit i = r.testBit i := by
  have hd : decide (i < 16) = true := by simp [hi]
  simp [masked_write, Nat.testBit_or, Nat.testBit_and, comp16_testBit,
    trunc16_testBit, hm, hd]

theorem masked_write_testBit_of_not_mask (r v m i : Nat) (hr : r < 65536)
    (hm : m.testBit i = false) :
    (masked_write r v m).testBit i = r.testBit i := by
  rcases Nat.lt_or_ge i 16 with hi | hi
  · exact masked_write_testBit_of_not_mask_lo r v m i hi hm
  · rw [masked_write_testBit_hi r v m i hi, testBit_hi_of_lt i hr hi]

theorem masked_write_eq_of_lt (r v m : Nat) (hv : v < 65536)
    (hm : m < 65536) :
    masked_write r v m = (r &&& (65535 ^^^ m)) ||| (v &&& m) := by
  rw [masked_write, comp16, trunc16, trunc16, MASK16,
    Nat.mod_eq_of_lt hv, Nat.mod_eq_of_lt hm]

theorem get_set_bank_same (bank : gpio_bank_t) (b : bank_regs)
    (s : iface_state) : get_bank bank (set_bank bank b s) = b := by
  cases bank <;> rfl

theorem get_set_bank_other (bank bank' : gpio_bank_t) (b : bank_regs)
    (s : iface_state) (h : bank ≠ bank') :
    get_bank bank (set_bank bank' b s) = get_bank bank s := by
  cases bank <;> cases bank' <;> first | exact (h rfl).elim | rfl

theorem get_bank_wf (s : iface_state) (bank : gpio_bank_t)
    (hwf : iface_wf s) : bank_wf (get_bank bank s) := by
  cases bank
  · exact hwf.1
  · exact hwf.2.1

theorem and_mask16_of_lt (v : Nat) (hv : v < 65536) : v &&& 65535 = v := by
  apply Nat.eq_of_testBit_eq
  intro i
  rcases Nat.lt_or_ge i 16 with h | h
  · rw [Nat.testBit_and, show (65535 : Nat) = 2 ^ 16 - 1 from rfl,
      Nat.testBit_two_pow_sub_one]
    simp [h]
  · simp [Nat.testBit_and, testBit_hi_of_lt i hv h]

theorem masked_write_full (r v : Nat) (hv : v < 65536) :
    masked_write r v 65535 = v := by
  rw [masked_write_eq_of_lt r v 65535 hv (by norm_num), Nat.xor_self,
    Nat.and_zero, Nat.zero_or, and_mask16_of_lt v hv]

theorem set_gpio_ddr_bank_eq (s : iface_state) (bank : gpio_bank_t)
    (v m : Nat) :
    get_bank bank (set_gpio_ddr bank v m s)
      = { get_bank bank s with
          ddr := masked_write (get_bank bank s).ddr v m } := by
  rw [set_gpio_ddr, get_set_bank_same]

theorem write_gpio_bank_eq (s : iface_state) (bank : gpio_bank_t)
    (v m : Nat) :
    get_bank bank (write_gpio bank v m s)
      = { get_bank bank s with
          pins := masked_write (get_bank bank s).pins v m } := by
  rw [write_gpio, get_set_bank_same]

theorem set_atr_reg_bank_eq (s : iface_state) (bank : gpio_bank_t)
    (tx rx m : Nat) :
    get_bank bank (set_atr_reg bank tx rx m s)
      = { get_bank bank s with
          atr_tx := masked_write (get_bank bank s).atr_tx tx m,
          atr_rx := masked_write (get_bank bank s).atr_rx rx m } := by
  rw [set_atr_reg, get_set_bank_same]

/-- C1: for every masked register write (`set_gpio_ddr` and `write_gpio`)
with arguments `(v, m)` applied to a 16-bit register with prior content
`R`, the resulting register content equals `(R and not m) or (v and m)`;
in particular every bit `i` not set in `m` retains its prior state. -/
theorem C1_masked_register_write (s : iface_state) (bank : gpio_bank_t)
    (v m i : Nat) (hwf : iface_wf s) (hv : v < 65536) (hm : m < 65536)
    (hmi : m.testBit i = false) :
    (get_bank bank (set_gpio_ddr bank v m s)).ddr
        = ((get_bank bank s).ddr &&& (65535 ^^^ m)) ||| (v &&& m)
    ∧ (get_bank bank (write_gpio bank v m s)).pins
        = ((get_bank bank s).pins &&& (65535 ^^^ m)) ||| (v &&& m)
    ∧ ((get_bank bank (set_gpio_ddr bank v m s)).ddr.testBit i
        = (get_bank bank s).ddr.testBit i)
    ∧ ((get_bank bank (write_gpio bank v m s)).pins.testBit i
        = (get_bank bank s).pins.testBit i) := by
  have hb := get_bank_wf s bank hwf
  rw [set_gpio_ddr_bank_eq, write_gpio_bank_eq]
  refine ⟨masked_write_eq_of_lt _ _ _ hv hm,
    masked_write_eq_of_lt _ _ _ hv hm,
    masked_write_testBit_of_not_mask _ _ _ _ hb.1 hmi,
    masked_write_testBit_of_not_mask _ _ _ _ hb.2.1 hmi⟩

/-- Witness for C1: bank TX, register write `(0x1234, 0x00FF)` and
untouched bit 12 on the all-output fixture. -/
theorem C1_masked_register_write_witness :
    (get_bank gpio_bank_t.GPIO_TX_BANK
        (set_gpio_ddr gpio_bank_t.GPIO_TX_BANK 4660 255 out_state)).ddr
        = ((get_bank gpio_bank_t.GPIO_TX_BANK out_state).ddr
            &&& (65535 ^^^ 255)) ||| (4660 &&& 255)
    ∧ (get_bank gpio_bank_t.GPIO_TX_BANK
        (write_gpio gpio_bank_t.GPIO_TX_BANK 4660 255 out_state)).pins
        = ((get_bank gpio_bank_t.GPIO_TX_BANK out_state).pins
            &&& (65535 ^^^ 255)) ||| (4660 &&& 255)
    ∧ ((get_bank gpio_bank_t.GPIO_TX_BANK
        (set_gpio_ddr gpio_bank_t.GPIO_TX_BANK 4660 255 out_state)).ddr.testBit 12
        = (get_bank gpio_bank_t.GPIO_TX_BANK out_state).ddr.testBit 12)
    ∧ ((get_bank gpio_bank_t.GPIO_TX_BANK
        (write_gpio gpio_bank_t.GPIO_TX_BANK 4660 255 out_state)).pins.testBit 12
        = (get_bank gpio_bank_t.GPIO_TX_BANK out_state).pins.testBit 12) :=
  C1_masked_register_write out_state gpio_bank_t.GPIO_TX_BANK 4660 255 12
    (by decide) (by decide) (by decide) (by decide)

/-- C2: the ATR register of a bank is a dual-value register — after
`set_atr_reg(bank, tx, rx, 0xFFFF)` its transmit-state view equals `tx`
and its receive-state view equals `rx`, and a bit `i` outside the mask of
a subsequent call with a narrower mask `m'` is unaffected in both views
by that call. -/
theorem C2_atr_dual_value (s : iface_state) (bank : gpio_bank_t)
    (tx rx tx' rx' m' i : Nat)
    (htx : tx < 65536) (hrx : rx < 65536)
    (hmi : m'.testBit i = false) :
    (get_bank bank (set_atr_reg bank tx rx 65535 s)).atr_tx = tx
    ∧ (get_bank bank (set_atr_reg bank tx rx 65535 s)).atr_rx = rx
    ∧ (get_bank bank (set_atr_reg bank tx' rx' m'
          (set_atr_reg bank tx rx 65535 s))).atr_tx.testBit i
        = tx.testBit i
    ∧ (get_bank bank (set_atr_reg bank tx' rx' m'
          (set_atr_reg bank tx rx 65535 s))).atr_rx.testBit i
        = rx.testBit i := by
  have e1 : (get_bank bank (set_atr_reg bank tx rx 65535 s)).atr_tx = tx := by
    rw [set_atr_reg_bank_eq]
    exact masked_write_full _ tx htx
  have e2 : (get_bank bank (set_atr_reg bank tx rx 65535 s)).atr_rx = rx := by
    rw [set_atr_reg_bank_eq]
    exact masked_write_full _ rx hrx
  refine ⟨e1, e2, ?_, ?_⟩
  · rw [set_atr_reg_bank_eq (set_atr_reg bank tx rx 65535 s) bank tx' rx' m']
    rw [e1]
    exact masked_write_testBit_of_not_mask _ _ _ _ htx hmi
  · rw [set_atr_reg_bank_eq (set_atr_reg bank tx rx 65535 s) bank tx' rx' m']
    rw [e2]
    exact masked_write_testBit_of_not_mask _ _ _ _ hrx hmi

/-- Witness for C2: bank RX, `tx = 0xFF00`, `rx = 0x00FF`, full mask, then
a narrower second call with mask `0x00FF` leaving bit 15 untouched. -/
theorem C2_atr_dual_value_witness :
    (get_bank gpio_bank_t.GPIO_RX_BANK
        (set_atr_reg gpio_bank_t.GPIO_RX_BANK 65280 255 65535
          init_state)).atr_tx = 65280
    ∧ (get_bank gpio_bank_t.GPIO_RX_BANK
        (set_atr_reg gpio_bank_t.GPIO_RX_BANK 65280 255 65535
          init_state)).atr_rx = 255
    ∧ (get_bank gpio_bank_t.GPIO_RX_BANK
        (set_atr_reg gpio_bank_t.GPIO_RX_BANK 0 0 255
          (set_atr_reg gpio_bank_t.GPIO_RX_BANK 65280 255 65535
            init_state))).atr_tx.testBit 15
        = (65280 : Nat).testBit 15
    ∧ (get_bank gpio_bank_t.GPIO_RX_BANK
        (set_atr_reg gpio_bank_t.GPIO_RX_BANK 0 0 255
          (set_atr_reg gpio_bank_t.GPIO_RX_BANK 65280 255 65535
            init_state))).atr_rx.testBit 15
        = (255 : Nat).testBit 15 :=
  C2_atr_dual_value init_state gpio_bank_t.GPIO_RX_BANK 65280 255 0 0 255 15
    (by decide) (by decide) (by decide)

/-- A fixture where I2C address 5 and the rx SPI device fail to
acknowledge, while every other peer acknowledges. -/
def mixed_state : iface_state :=
  { init_state with
    i2c_bus := fun a => if a = 5 then ⟨false, []⟩ else ⟨true, []⟩
    spi_rx := ⟨false, []⟩ }

/-- C4: `read_i2c(address, length)` and `read_spi(device, latch, length)`
return exactly `length` bytes on success and a zero-length result on a
bus transaction failure — a partial result of length strictly between 0
and `length` is never produced. -/
theorem C4_read_all_or_nothing (s : iface_state) (addr len : Nat)
    (dev : spi_dev_t) (latch : spi_latch_t) :
    (read_i2c addr len s).length
        = (if (s.i2c_bus addr).ack then len else 0)
    ∧ (read_spi dev latch len s).length
        = (if (get_spi_dev dev s).ok then len else 0) := by
  constructor
  · rw [read_i2c]
    by_cases h : (s.i2c_bus addr).ack
    · simp [h]
      omega
    · simp [h]
  · rw [read_spi]
    by_cases h : (get_spi_dev dev s).ok
    · simp [h]
      omega
    · simp [h]

/-- C6: `write_i2c(address, bytes)` writes the bytes in order as a single
transaction and fails as a whole — never truncating and never reporting
success after a partial write — exactly when the addressed peer does not
acknowledge: an acknowledging peer yields success with the full byte
sequence stored, a non-acknowledging one yields a bus failure. -/
theorem C6_write_i2c_all_or_nothing (s : iface_state)
    (addr_ok addr_bad : Nat) (buf : List Nat)
    (hok : (s.i2c_bus addr_ok).ack = true)
    (hbad : (s.i2c_bus addr_bad).ack = false) :
    write_i2c addr_ok buf s = Except.ok (i2c_poke addr_ok buf s)
    ∧ ((i2c_poke addr_ok buf s).i2c_bus addr_ok).mem = buf
    ∧ write_i2c addr_bad buf s = Except.error dboard_error.bus_failure := by
  refine ⟨?_, ?_, ?_⟩
  · rw [write_i2c, if_pos hok]
  · simp [i2c_poke]
  · rw [write_i2c, if_neg (by simp [hbad])]

/-- Witness for C6 on the mixed fixture: address 3 acknowledges, address
5 does not. -/
theorem C6_write_i2c_all_or_nothing_witness :
    write_i2c 3 [10, 20] mixed_state
        = Except.ok (i2c_poke 3 [10, 20] mixed_state)
    ∧ ((i2c_poke 3 [10, 20] mixed_state).i2c_bus 3).mem = [10, 20]
    ∧ write_i2c 5 [10, 20] mixed_state
        = Except.error dboard_error.bus_failure :=
  C6_write_i2c_all_or_nothing mixed_state 3 5 [10, 20]
    (by decide) (by decide)

/-- C7: round-trip — `write_i2c(addr, bytes)` on an acknowledging
(loopback-capable) peer succeeds, and `read_i2c(addr, len(bytes))`
immediately after returns exactly `bytes`. -/
theorem C7_i2c_roundtrip (s : iface_state) (addr : Nat) (buf : List Nat)
    (hack : (s.i2c_bus addr).ack = true) :
    write_i2c addr buf s = Except.ok (i2c_poke addr buf s)
    ∧ read_i2c addr buf.length (i2c_poke addr buf s) = buf := by
  constructor
  · rw [write_i2c, if_pos hack]
  · simp [read_i2c, i2c_poke, hack]

/-- Witness for C7 at address 7 with bytes `[1, 2, 3]`. -/
theorem C7_i2c_roundtrip_witness :
    write_i2c 7 [1, 2, 3] init_state
        = Except.ok (i2c_poke 7 [1, 2, 3] init_state)
    ∧ read_i2c 7 [1, 2, 3].length (i2c_poke 7 [1, 2, 3] init_state)
        = [1, 2, 3] :=
  C7_i2c_roundtrip init_state 7 [1, 2, 3] (by decide)

theorem set_bank_clock (bank : gpio_bank_t) (b : bank_regs)
    (s : iface_state) :
    (set_bank bank b s).tx_clock_rate = s.tx_clock_rate
    ∧ (set_bank bank b s).rx_clock_rate = s.rx_clock_rate := by
  cases bank <;> exact ⟨rfl, rfl⟩

theorem apply_gpio_op_clock (op : gpio_op) (s : iface_state) :
    (apply_gpio_op op s).tx_clock_rate = s.tx_clock_rate
    ∧ (apply_gpio_op op s).rx_clock_rate = s.rx_clock_rate := by
  cases op <;>
    simp [apply_gpio_op, set_atr_reg, set_gpio_ddr, write_gpio,
      set_bank_clock]

/-- C8: `get_tx_clock_rate` and `get_rx_clock_rate` are pure reads — each
returns a non-negative rate and leaves the interface state unchanged —
and no operation of the contract changes the rates they report: every
register operation and every bus/DAC mutation preserves both clock-rate
fields (no setter exists). -/
theorem C8_clock_rate_pure (s : iface_state) (op : gpio_op) (addr : Nat)
    (buf buf2 : List Nat) (dev : spi_dev_t) (idx : Nat) (val : Int)
    (hwf : iface_wf s) :
    (get_tx_clock_rate s).2 = s
    ∧ (get_rx_clock_rate s).2 = s
    ∧ 0 ≤ (get_tx_clock_rate s).1
    ∧ 0 ≤ (get_rx_clock_rate s).1
    ∧ (apply_gpio_op op s).tx_clock_rate = s.tx_clock_rate
    ∧ (apply_gpio_op op s).rx_clock_rate = s.rx_clock_rate
    ∧ (i2c_poke addr buf s).tx_clock_rate = s.tx_clock_rate
    ∧ (i2c_poke addr buf s).rx_clock_rate = s.rx_clock_rate
    ∧ (spi_poke dev buf2 s).tx_clock_rate = s.tx_clock_rate
    ∧ (spi_poke dev buf2 s).rx_clock_rate = s.rx_clock_rate
    ∧ (dac_poke idx val s).tx_clock_rate = s.tx_clock_rate
    ∧ (dac_poke idx val s).rx_clock_rate = s.rx_clock_rate := by
  refine ⟨rfl, rfl, hwf.2.2.1, hwf.2.2.2,
    (apply_gpio_op_clock op s).1, (apply_gpio_op_clock op s).2,
    rfl, rfl, ?_, ?_, rfl, rfl⟩ <;> cases dev <;> rfl

/-- Witness for C8 on the initial fixture with a representative register
operation and bus arguments. -/
theorem C8_clock_rate_pure_witness :
    (get_tx_clock_rate init_state).2 = init_state
    ∧ (get_rx_clock_rate init_state).2 = init_state
    ∧ 0 ≤ (get_tx_clock_rate init_state).1
    ∧ 0 ≤ (get_rx_clock_rate init_state).1
    ∧ (apply_gpio_op
        (gpio_op.op_write_gpio gpio_bank_t.GPIO_TX_BANK 255 255)
        init_state).tx_clock_rate = init_state.tx_clock_rate
    ∧ (apply_gpio_op
        (gpio_op.op_write_gpio gpio_bank_t.GPIO_TX_BANK 255 255)
        init_state).rx_clock_rate = init_state.rx_clock_rate
    ∧ (i2c_poke 7 [1] init_state).tx_clock_rate = init_state.tx_clock_rate
    ∧ (i2c_poke 7 [1] init_state).rx_clock_rate = init_state.rx_clock_rate
    ∧ (spi_poke spi_dev_t.SPI_TX_DEV [2] init_state).tx_clock_rate
        = init_state.tx_clock_rate
    ∧ (spi_poke spi_dev_t.SPI_TX_DEV [2] init_state).rx_clock_rate
        = init_state.rx_clock_rate
    ∧ (dac_poke 1 9 init_state).tx_clock_rate = init_state.tx_clock_rate
    ∧ (dac_poke 1 9 init_state).rx_clock_rate = init_state.rx_clock_rate :=
  C8_clock_rate_pure init_state
    (gpio_op.op_write_gpio gpio_bank_t.GPIO_TX_BANK 255 255)
    7 [1] [2] spi_dev_t.SPI_TX_DEV 1 9 (by decide)

/-- C9: `write_aux_dac` and `read_aux_adc` range-check their channel
index — an out-of-range index fails fast as a usage error without
performing any access, while an in-range index performs the indexed DAC
write or ADC read. -/
theorem C9_aux_dac_adc_range_check (s : iface_state)
    (i_hi i_ok j_hi j_ok : Nat) (val : Int)
    (h1 : s.num_dacs ≤ i_hi) (h2 : i_ok < s.num_dacs)
    (h3 : s.num_adcs ≤ j_hi) (h4 : j_ok < s.num_adcs) :
    write_aux_dac i_hi val s = Except.error dboard_error.usage_error
    ∧ write_aux_dac i_ok val s = Except.ok (dac_poke i_ok val s)
    ∧ (dac_poke i_ok val s).dacs i_ok = val
    ∧ read_aux_adc j_hi s = Except.error dboard_error.usage_error
    ∧ read_aux_adc j_ok s = Except.ok (s.adcs j_ok) := by
  refine ⟨?_, ?_, ?_, ?_, ?_⟩
  · rw [write_aux_dac, if_neg (Nat.not_lt.mpr h1)]
  · rw [write_aux_dac, if_pos h2]
  · simp [dac_poke]
  · rw [read_aux_adc, if_neg (Nat.not_lt.mpr h3)]
  · rw [read_aux_adc, if_pos h4]

/-- Witness for C9 on the initial fixture (4 channels): index 9 is out of
range, index 2 is in range. -/
theorem C9_aux_dac_adc_range_check_witness :
    write_aux_dac 9 5 init_state = Except.error dboard_error.usage_error
    ∧ write_aux_dac 2 5 init_state = Except.ok (dac_poke 2 5 init_state)
    ∧ (dac_poke 2 5 init_state).dacs 2 = 5
    ∧ read_aux_adc 9 init_state = Except.error dboard_error.usage_error
    ∧ read_aux_adc 2 init_state = Except.ok (init_state.adcs 2) :=
  C9_aux_dac_adc_range_check init_state 9 2 9 2 5
    (by decide) (by decide) (by decide) (by decide)

/-- C10: every selector type of the interface — `spi_dev_t`,
`spi_push_t`, `spi_latch_t` and `gpio_bank_t` — is a closed enumeration
with exactly two distinct values, and the selector-taking operations are
defined on both values of their type (each selects one of the two
transmit-side or receive-side resources), so no third selector value is
representable. -/
theorem C10_selector_enums_closed :
    (∀ x : spi_dev_t,
        x = spi_dev_t.SPI_TX_DEV ∨ x = spi_dev_t.SPI_RX_DEV)
    ∧ spi_dev_t.SPI_TX_DEV ≠ spi_dev_t.SPI_RX_DEV
    ∧ (∀ x : spi_push_t,
        x = spi_push_t.SPI_PUSH_RISE ∨ x = spi_push_t.SPI_PUSH_FALL)
    ∧ spi_push_t.SPI_PUSH_RISE ≠ spi_push_t.SPI_PUSH_FALL
    ∧ (∀ x : spi_latch_t,
        x = spi_latch_t.SPI_LATCH_RISE ∨ x = spi_latch_t.SPI_LATCH_FALL)
    ∧ spi_latch_t.SPI_LATCH_RISE ≠ spi_latch_t.SPI_LATCH_FALL
    ∧ (∀ x : gpio_bank_t,
        x = gpio_bank_t.GPIO_TX_BANK ∨ x = gpio_bank_t.GPIO_RX_BANK)
    ∧ gpio_bank_t.GPIO_TX_BANK ≠ gpio_bank_t.GPIO_RX_BANK
    ∧ (∀ (d : spi_dev_t) (s : iface_state),
        get_spi_dev d s = s.spi_tx ∨ get_spi_dev d s = s.spi_rx)
    ∧ (∀ (b : gpio_bank_t) (s : iface_state),
        get_bank b s = s.tx_bank ∨ get_bank b s = s.rx_bank) := by
  refine ⟨fun x => ?_, by decide, fun x => ?_, by decide, fun x => ?_,
    by decide, fun x => ?_, by decide, fun d s => ?_, fun b s => ?_⟩
  · cases x
    · exact Or.inl rfl
    · exact Or.inr rfl
  · cases x
    · exact Or.inl rfl
    · exact Or.inr rfl
  · cases x
    · exact Or.inl rfl
    · exact Or.inr rfl
  · cases x
    · exact Or.inl rfl
    · exact Or.inr rfl
  · cases d
    · exact Or.inl rfl
    · exact Or.inr rfl
  · cases b
    · exact Or.inl rfl
    · exact Or.inr rfl

theorem testBit_lt_16 {m i : Nat} (hm : m < 65536) (h : m.testBit i = true) :
    i < 16 := by
  by_contra hc
  rw [testBit_hi_of_lt i hm (Nat.le_of_not_lt hc)] at h
  exact Bool.false_ne_true h

theorem apply_gpio_op_other_bank (op : gpio_op) (bank : gpio_bank_t)
    (s : iface_state) (h : gpio_op_bank op ≠ bank) :
    get_bank bank (apply_gpio_op op s) = get_bank bank s := by
  cases op with
  | op_set_atr bank' tx rx m =>
      simp only [apply_gpio_op, set_atr_reg]
      exact get_set_bank_other bank bank' _ s (Ne.symm h)
  | op_set_ddr bank' v m =>
      simp only [apply_gpio_op, set_gpio_ddr]
      exact get_set_bank_other bank bank' _ s (Ne.symm h)
  | op_write_gpio bank' v m =>
      simp only [apply_gpio_op, write_gpio]
      exact get_set_bank_other bank bank' _ s (Ne.symm h)

theorem apply_gpio_ops_other_bank (l : List gpio_op) (bank : gpio_bank_t)
    (s : iface_state) (h : ∀ op ∈ l, gpio_op_bank op ≠ bank) :
    get_bank bank (apply_gpio_ops l s) = get_bank bank s := by
  induction l generalizing s with
  | nil => rfl
  | cons op t ih =>
      have e : apply_gpio_ops (op :: t) s
          = apply_gpio_ops t (apply_gpio_op op s) := rfl
      rw [e, ih (apply_gpio_op op s)
          (fun o ho => h o (List.mem_cons_of_mem _ ho)),
        apply_gpio_op_other_bank op bank s (h op (List.mem_cons_self _ _))]

/-- Counterexample to C3 as literally stated: with every pin of the bank
configured as input (direction register 0) and the externally driven
level 0, `read_gpio` after `write_gpio(TX, 1, 1)` reports the external
level, not the written value, so the masked bit differs from `v & mask`
even with no interleaved call at all. -/
theorem C3_read_after_write_counterexample :
    ¬ (read_gpio gpio_bank_t.GPIO_TX_BANK
        (apply_gpio_ops []
          (write_gpio gpio_bank_t.GPIO_TX_BANK 1 1 init_state)) &&& 1
      = 1 &&& 1) := by decide

/-- C3 (amended): if the masked bits are configured as outputs in the
bank's direction register, then `read_gpio(bank)` after
`write_gpio(bank, v, m)` returns a value whose masked bits equal
`v & m`, and this is independent of any interleaved register operations
on the other bank (interleaved `read_gpio` calls have no state effect at
all): operations on one bank leave the other bank's registers
unchanged. -/
theorem C3_read_after_write_other_bank (s : iface_state)
    (bank : gpio_bank_t) (v m : Nat) (l : List gpio_op)
    (hwf : iface_wf s) (hm : m < 65536)
    (hddr : (get_bank bank s).ddr &&& m = m)
    (hl : ∀ op ∈ l, gpio_op_bank op ≠ bank) :
    read_gpio bank (apply_gpio_ops l (write_gpio bank v m s)) &&& m
      = v &&& m := by
  have hd : (get_bank bank s).ddr < 65536 := (get_bank_wf s bank hwf).1
  rw [read_gpio]
  rw [apply_gpio_ops_other_bank l bank (write_gpio bank v m s) hl]
  rw [write_gpio_bank_eq]
  apply Nat.eq_of_testBit_eq
  intro i
  simp only [Nat.testBit_and, Nat.testBit_or]
  by_cases hmb : m.testBit i = true
  · have hi : i < 16 := testBit_lt_16 hm hmb
    have hdb : (get_bank bank s).ddr.testBit i = true := by
      have := congrArg (fun x => x.testBit i) hddr
      simpa [Nat.testBit_and, hmb] using this
    rw [trunc16_testBit, comp16_testBit, hdb, hmb,
      masked_write_testBit_of_mask _ _ _ _ hi hmb]
    simp [hi]
  · have hmb' : m.testBit i = false := by simpa using hmb
    rw [hmb']
    simp

/-- Witness for C3 (amended): all-output tx bank, write `(0xAB, 0x00FF)`,
one interleaved full-width write on the rx bank, read back on tx. -/
theorem C3_read_after_write_other_bank_witness :
    read_gpio gpio_bank_t.GPIO_TX_BANK
        (apply_gpio_ops
          [gpio_op.op_write_gpio gpio_bank_t.GPIO_RX_BANK 65535 65535,
           gpio_op.op_set_atr gpio_bank_t.GPIO_RX_BANK 255 255 65535]
          (write_gpio gpio_bank_t.GPIO_TX_BANK 171 255 out_state)) &&& 255
      = 171 &&& 255 :=
  C3_read_after_write_other_bank out_state gpio_bank_t.GPIO_TX_BANK
    171 255
    [gpio_op.op_write_gpio gpio_bank_t.GPIO_RX_BANK 65535 65535,
     gpio_op.op_set_atr gpio_bank_t.GPIO_RX_BANK 255 255 65535]
    (by decide) (by decide) (by decide) (by decide)

/-! ## Concurrent masked writes: atomic read-modify-write model -/

theorem disjoint_testBit {m1 m2 : Nat} (hd : m1 &&& m2 = 0) (i : Nat)
    (h1 : m1.testBit i = true) : m2.testBit i = false := by
  rcases Bool.eq_false_or_eq_true (m2.testBit i) with h | h
  · exfalso
    have hb : (m1 &&& m2).testBit i = true := by
      simp [Nat.testBit_and, h1, h]
    rw [hd] at hb
    simp at hb
  · exact h

theorem mask_disjoint_symm :
    Symmetric (fun p q : Nat × Nat => p.2 &&& q.2 = 0) := by
  intro a b h
  rw [Nat.and_comm]
  exact h

theorem apply_masked_writes_cons (r : Nat) (p : Nat × Nat)
    (t : List (Nat × Nat)) :
    apply_masked_writes r (p :: t)
      = apply_masked_writes (masked_write r p.1 p.2) t := rfl

theorem union_mask_testBit (ws : List (Nat × Nat)) (i : Nat) :
    (union_mask ws).testBit i = ws.any (fun q => q.2.testBit i) := by
  induction ws with
  | nil => simp [union_mask]
  | cons p t ih =>
      have e : union_mask (p :: t) = p.2 ||| union_mask t := rfl
      rw [e, Nat.testBit_or, ih, List.any_cons]

theorem union_value_testBit (ws : List (Nat × Nat)) (i : Nat) :
    (union_value ws).testBit i
      = ws.any (fun q => q.1.testBit i && q.2.testBit i) := by
  induction ws with
  | nil => simp [union_value]
  | cons p t ih =>
      have e : union_value (p :: t) = (p.1 &&& p.2) ||| union_value t := rfl
      rw [e, Nat.testBit_or, Nat.testBit_and, ih, List.any_cons]

theorem apply_masked_writes_lt (ws : List (Nat × Nat)) (r : Nat)
    (hr : r < 65536) : apply_masked_writes r ws < 65536 := by
  induction ws generalizing r with
  | nil => exact hr
  | cons p t ih =>
      rw [apply_masked_writes_cons]
      exact ih _ (masked_write_lt _ _ _)

theorem apply_masked_writes_untouched (ws : List (Nat × Nat)) (r i : Nat)
    (hi : i < 16) (h : ∀ q ∈ ws, q.2.testBit i = false) :
    (apply_masked_writes r ws).testBit i = r.testBit i := by
  induction ws generalizing r with
  | nil => rfl
  | cons p t ih =>
      rw [apply_masked_writes_cons,
        ih _ (fun q hq => h q (List.mem_cons_of_mem _ hq)),
        masked_write_testBit_of_not_mask_lo _ _ _ _ hi
          (h p (List.mem_cons_self _ _))]

theorem masked_write_comm (v1 m1 v2 m2 : Nat) (hd : m1 &&& m2 = 0)
    (r : Nat) :
    masked_write (masked_write r v1 m1) v2 m2
      = masked_write (masked_write r v2 m2) v1 m1 := by
  apply Nat.eq_of_testBit_eq
  intro i
  rcases Nat.lt_or_ge i 16 with hi | hi
  · by_cases h1 : m1.testBit i = true
    · have h2 : m2.testBit i = false := disjoint_testBit hd i h1
      rw [masked_write_testBit_of_not_mask_lo _ _ _ _ hi h2,
        masked_write_testBit_of_mask _ _ _ _ hi h1,
        masked_write_testBit_of_mask _ _ _ _ hi h1]
    · have h1' : m1.testBit i = false := by simpa using h1
      by_cases h2 : m2.testBit i = true
      · rw [masked_write_testBit_of_mask _ _ _ _ hi h2,
          masked_write_testBit_of_not_mask_lo _ _ _ _ hi h1',
          masked_write_testBit_of_mask _ _ _ _ hi h2]
      · have h2' : m2.testBit i = false := by simpa using h2
        rw [masked_write_testBit_of_not_mask_lo _ _ _ _ hi h2',
          masked_write_testBit_of_not_mask_lo _ _ _ _ hi h1',
          masked_write_testBit_of_not_mask_lo _ _ _ _ hi h1',
          masked_write_testBit_of_not_mask_lo _ _ _ _ hi h2']
  · rw [masked_write_testBit_hi _ _ _ _ hi,
      masked_write_testBit_hi _ _ _ _ hi]

theorem apply_masked_writes_perm (r : Nat) (ws ws' : List (Nat × Nat))
    (hperm : ws.Perm ws')
    (hdisj : ws.Pairwise (fun p q => p.2 &&& q.2 = 0)) :
    apply_masked_writes r ws = apply_masked_writes r ws' := by
  unfold apply_masked_writes
  refine List.Perm.foldl_eq' hperm ?_ r
  intro x hx y hy z
  by_cases hxy : x = y
  · rw [hxy]
  · exact masked_write_comm x.1 x.2 y.1 y.2
      (List.Pairwise.forall mask_disjoint_symm hdisj hx hy hxy) z

theorem apply_masked_writes_keeps (ws : List (Nat × Nat)) (r : Nat) :
    (∀ q ∈ ws, q.2 < 65536) →
    ws.Pairwise (fun p q => p.2 &&& q.2 = 0) →
    ∀ p ∈ ws, apply_masked_writes r ws &&& p.2 = p.1 &&& p.2 := by
  induction ws generalizing r with
  | nil =>
      intro _ _ p hp
      cases hp
  | cons q t ih =>
      intro hws hdisj p hp
      rcases List.mem_cons.mp hp with rfl | hp'
      · rw [apply_masked_writes_cons]
        apply Nat.eq_of_testBit_eq
        intro i
        rw [Nat.testBit_and, Nat.testBit_and]
        by_cases hqb : p.2.testBit i = true
        · have hi : i < 16 :=
            testBit_lt_16 (hws p (List.mem_cons_self _ _)) hqb
          have htail : ∀ w ∈ t, w.2.testBit i = false := fun w hw =>
            disjoint_testBit ((List.pairwise_cons.mp hdisj).1 w hw) i hqb
          rw [apply_masked_writes_untouched t _ i hi htail,
            masked_write_testBit_of_mask _ _ _ _ hi hqb, hqb]
        · have hqb' : p.2.testBit i = false := by simpa using hqb
          rw [hqb']
          simp
      · rw [apply_masked_writes_cons]
        exact ih (masked_write r q.1 q.2)
          (fun w hw => hws w (List.mem_cons_of_mem _ hw))
          (List.pairwise_cons.mp hdisj).2 p hp'

theorem apply_masked_writes_outside (ws : List (Nat × Nat)) (r i : Nat) :
    r < 65536 →
    (union_mask ws).testBit i = false →
    (apply_masked_writes r ws).testBit i = r.testBit i := by
  induction ws generalizing r with
  | nil =>
      intro _ _
      rfl
  | cons q t ih =>
      intro hr hum
      have e : union_mask (q :: t) = q.2 ||| union_mask t := rfl
      rw [e, Nat.testBit_or, Bool.or_eq_false_iff] at hum
      rw [apply_masked_writes_cons,
        ih (masked_write r q.1 q.2) (masked_write_lt _ _ _) hum.2,
        masked_write_testBit_of_not_mask _ _ _ _ hr hum.1]

theorem apply_masked_writes_union_eq (ws : List (Nat × Nat)) (r : Nat)
    (hws : ∀ q ∈ ws, q.2 < 65536)
    (hdisj : ws.Pairwise (fun p q => p.2 &&& q.2 = 0)) :
    apply_masked_writes r ws &&& union_mask ws = union_value ws := by
  apply Nat.eq_of_testBit_eq
  intro i
  rw [Nat.testBit_and, union_mask_testBit, union_value_testBit]
  by_cases hum : ws.any (fun q => q.2.testBit i) = true
  · rcases List.any_eq_true.mp hum with ⟨q, hq, hqb⟩
    have hkeep := apply_masked_writes_keeps ws r hws hdisj q hq
    have hfin : (apply_masked_writes r ws).testBit i = q.1.testBit i := by
      have hbit := congrArg (fun x => x.testBit i) hkeep
      simpa [Nat.testBit_and, hqb] using hbit
    rw [hum, hfin, Bool.and_true]
    rcases hv : q.1.testBit i with _ | _
    · refine (List.any_eq_false.mpr ?_).symm
      intro w hw
      by_cases hwq : w = q
      · rw [hwq, hv]
        simp
      · have hw2 : w.2.testBit i = false :=
          disjoint_testBit
            (List.Pairwise.forall mask_disjoint_symm hdisj hq hw
              (fun h => hwq h.symm)) i hqb
        simp [hw2]
    · exact (List.any_eq_true.mpr ⟨q, hq, by simp [hv, hqb]⟩).symm
  · have hum' : ws.any (fun q => q.2.testBit i) = false := by simpa using hum
    rw [hum', Bool.and_false]
    refine (List.any_eq_false.mpr ?_).symm
    intro w hw
    have hw2 : w.2.testBit i = false := by
      have := List.any_eq_false.mp hum' w hw
      simpa using this
    simp [hw2]

theorem apply_gpio_writes_pins (bank : gpio_bank_t)
    (ws : List (Nat × Nat)) (s : iface_state) :
    (get_bank bank (apply_gpio_ops
        (ws.map (fun q => gpio_op.op_write_gpio bank q.1 q.2)) s)).pins
      = apply_masked_writes (get_bank bank s).pins ws := by
  induction ws generalizing s with
  | nil => rfl
  | cons q t ih =>
      have e : apply_gpio_ops
            ((q :: t).map (fun q => gpio_op.op_write_gpio bank q.1 q.2)) s
          = apply_gpio_ops
              (t.map (fun q => gpio_op.op_write_gpio bank q.1 q.2))
              (write_gpio bank q.1 q.2 s) := rfl
      rw [e, ih (write_gpio bank q.1 q.2 s), write_gpio_bank_eq,
        apply_masked_writes_cons]

/-- C5: masked register writes are atomic read-modify-write cycles, so
when callers issue masked writes `ws` with pairwise disjoint masks to the
same register, every interleaving (any permutation `ws1` of `ws`) yields
the same final content; each caller's masked bits hold that caller's
intended value (no lost updates), the masked portion of the register
equals the bitwise union of all intended values, and each bit outside
every mask keeps its prior state.  The first conjunct ties the fold of
masked writes to the actual sequence of `write_gpio` calls on a bank. -/
theorem C5_concurrent_disjoint_masked_writes (s : iface_state)
    (bank : gpio_bank_t) (r : Nat) (ws ws1 : List (Nat × Nat))
    (p : Nat × Nat) (i : Nat)
    (hr : r < 65536)
    (hws : ∀ q ∈ ws, q.2 < 65536)
    (hdisj : ws.Pairwise (fun a b => a.2 &&& b.2 = 0))
    (hperm : ws.Perm ws1)
    (hp : p ∈ ws)
    (hout : (union_mask ws).testBit i = false) :
    (get_bank bank (apply_gpio_ops
        (ws1.map (fun q => gpio_op.op_write_gpio bank q.1 q.2)) s)).pins
      = apply_masked_writes (get_bank bank s).pins ws1
    ∧ apply_masked_writes r ws1 = apply_masked_writes r ws
    ∧ apply_masked_writes r ws1 &&& p.2 = p.1 &&& p.2
    ∧ apply_masked_writes r ws1 &&& union_mask ws = union_value ws
    ∧ (apply_masked_writes r ws1).testBit i = r.testBit i := by
  have he : apply_masked_writes r ws = apply_masked_writes r ws1 :=
    apply_masked_writes_perm r ws ws1 hperm hdisj
  refine ⟨apply_gpio_writes_pins bank ws1 s, he.symm, ?_, ?_, ?_⟩
  · rw [← he]
    exact apply_masked_writes_keeps ws r hws hdisj p hp
  · rw [← he]
    exact apply_masked_writes_union_eq ws r hws hdisj
  · rw [← he]
    exact apply_masked_writes_outside ws r i hr hout

/-- Witness for C5: prior content `0x8000`, two writes to disjoint bit
ranges — `(0x000F, 0x00FF)` and `(0xF000, 0xFF00)` — interleaved in the
opposite order, checked bit 16 outside both masks. -/
theorem C5_concurrent_disjoint_masked_writes_witness :
    (get_bank gpio_bank_t.GPIO_TX_BANK (apply_gpio_ops
        ([((61440 : Nat), (65280 : Nat)), ((15 : Nat), (255 : Nat))].map
          (fun q => gpio_op.op_write_gpio gpio_bank_t.GPIO_TX_BANK
            q.1 q.2)) init_state)).pins
      = apply_masked_writes
          (get_bank gpio_bank_t.GPIO_TX_BANK init_state).pins
          [((61440 : Nat), (65280 : Nat)), ((15 : Nat), (255 : Nat))]
    ∧ apply_masked_writes 32768
          [((61440 : Nat), (65280 : Nat)), ((15 : Nat), (255 : Nat))]
        = apply_masked_writes 32768
            [((15 : Nat), (255 : Nat)), ((61440 : Nat), (65280 : Nat))]
    ∧ apply_masked_writes 32768
          [((61440 : Nat), (65280 : Nat)), ((15 : Nat), (255 : Nat))]
          &&& 255 = 15 &&& 255
    ∧ apply_masked_writes 32768
          [((61440 : Nat), (65280 : Nat)), ((15 : Nat), (255 : Nat))]
          &&& union_mask
            [((15 : Nat), (255 : Nat)), ((61440 : Nat), (65280 : Nat))]
        = union_value
            [((15 : Nat), (255 : Nat)), ((61440 : Nat), (65280 : Nat))]
    ∧ (apply_masked_writes 32768
          [((61440 : Nat), (65280 : Nat)), ((15 : Nat), (255 : Nat))]
        ).testBit 16 = (32768 : Nat).testBit 16 :=
  C5_concurrent_disjoint_masked_writes init_state gpio_bank_t.GPIO_TX_BANK
    32768
    [((15 : Nat), (255 : Nat)), ((61440 : Nat), (65280 : Nat))]
    [((61440 : Nat), (65280 : Nat)), ((15 : Nat), (255 : Nat))]
    ((15 : Nat), (255 : Nat)) 16
    (by decide) (by decide) (by decide)
    (List.Perm.swap ((61440 : Nat), (65280 : Nat))
      ((15 : Nat), (255 : Nat)) [])
    (by decide) (by decide)
